import Mathlib

/-
Verification of the voice-capture session controller of BoltVoice2Canvas.

The development shallowly embeds the controller implemented by
`src/src/hooks/useSpeechRecognition.ts` (the `useSpeechRecognition` hook) and
the error-display predicate of `src/src/components/VoiceRecorder.tsx`.
React state setters become fields of an explicit `SessionState`; the
recognition objects allocated by `startListening` become generation-counter
handles; adapter callbacks and user commands become a tagged event type
consumed by a single step function, and a run is a left fold of that step
function over an event list.
-/

namespace BoltVoice

/-- A JavaScript exception as observed by the hook's catch blocks: the
platform error carries a `name` (used for classification) and a `message`. -/
structure JsError where
  name : String
  message : String
deriving DecidableEq

/-- Message set by `startListening` when `isSupported` is false
(useSpeechRecognition.ts line 69). -/
def unsupportedMsg : String :=
  "Speech recognition is not supported in this browser. Please use Chrome, Edge, or Safari."

/-- Message rethrown by `checkMicrophonePermission` for `NotAllowedError`
(line 56). -/
def permDeniedMsg : String :=
  "Microphone access denied. Please allow microphone access and try again."

/-- Message rethrown by `checkMicrophonePermission` for `NotFoundError`
(line 57). -/
def permNoMicMsg : String :=
  "No microphone found. Please connect a microphone and try again."

/-- Message rethrown by `checkMicrophonePermission` for `NotSupportedError`
(line 60). -/
def permNotSupportedMsg : String :=
  "Microphone access is not supported in this browser."

/-- Fallback message rethrown by `checkMicrophonePermission` for any other
failure (line 62). -/
def permFailedMsg : String :=
  "Failed to access microphone. Please check your browser settings."

/-- Message of the error thrown inside the try block when `getUserMedia` is
unavailable (line 42); note its `name` is the generic `Error`. -/
def innerUnavailableMsg : String :=
  "Microphone access is not supported in this browser"

/-- Fallback used by the `startListening` catch when the caught error has an
empty message (line 152). -/
def startFallbackMsg : String :=
  "Failed to start speech recognition. Please try again."

/-- What the platform media-permission primitive does during one probe:
`getUserMedia` may be missing, may reject with a platform error, or may
resolve with a stream holding the given audio tracks. -/
inductive MediaEnv where
  | unavailable : MediaEnv
  | denied : JsError → MediaEnv
  | granted : List Nat → MediaEnv
deriving DecidableEq

/-- The raw body of `checkMicrophonePermission`'s try block (lines 40-51):
when `getUserMedia` is missing it throws a plain `Error` (whose name is
`Error`, not one of the recognized platform names); when `getUserMedia`
rejects, that platform error propagates; on success the stream's tracks are
returned. -/
def getUserMediaProbe : MediaEnv → Except JsError (List Nat)
  | MediaEnv.unavailable => Except.error (JsError.mk "Error" innerUnavailableMsg)
  | MediaEnv.denied e => Except.error e
  | MediaEnv.granted ts => Except.ok ts

/-- The catch block of `checkMicrophonePermission` (lines 52-64): the caught
error's `name` selects the rethrown message. -/
def classifyPermError (e : JsError) : String :=
  if e.name = "NotAllowedError" then permDeniedMsg
  else if e.name = "NotFoundError" then permNoMicMsg
  else if e.name = "NotSupportedError" then permNotSupportedMsg
  else permFailedMsg

/-- Observable outcome of one `checkMicrophonePermission` call: the message
of the exception it rethrew (if any), the audio tracks acquired from the
device, and the tracks on which `track.stop()` was invoked, in call order. -/
structure ProbeOutcome where
  thrown : Option String
  acquiredTracks : List Nat
  stoppedTracks : List Nat
deriving DecidableEq

/-- `checkMicrophonePermission` (lines 38-65): on success the acquired
stream's tracks are each stopped via `forEach` before returning; on any
failure the caught error is reclassified by name and rethrown (no stream was
acquired on those paths). -/
def checkMicrophonePermission (m : MediaEnv) : ProbeOutcome :=
  match getUserMediaProbe m with
  | Except.ok ts =>
      { thrown := none
        acquiredTracks := ts
        stoppedTracks := ts.foldl (fun acc t => acc ++ [t]) [] }
  | Except.error e =>
      { thrown := some (classifyPermError e)
        acquiredTracks := []
        stoppedTracks := [] }

/-- The closed set of platform speech-recognition error codes (the TypeScript
`SpeechRecognitionErrorCode` union delivered in `event.error`). -/
inductive SpeechErrorCode where
  | notAllowed : SpeechErrorCode
  | noSpeech : SpeechErrorCode
  | audioCapture : SpeechErrorCode
  | network : SpeechErrorCode
  | serviceNotAllowed : SpeechErrorCode
  | badGrammar : SpeechErrorCode
  | languageNotSupported : SpeechErrorCode
  | aborted : SpeechErrorCode
deriving DecidableEq

/-- The DOMString value of each platform error code. -/
def codeString : SpeechErrorCode → String
  | SpeechErrorCode.notAllowed => "not-allowed"
  | SpeechErrorCode.noSpeech => "no-speech"
  | SpeechErrorCode.audioCapture => "audio-capture"
  | SpeechErrorCode.network => "network"
  | SpeechErrorCode.serviceNotAllowed => "service-not-allowed"
  | SpeechErrorCode.badGrammar => "bad-grammar"
  | SpeechErrorCode.languageNotSupported => "language-not-supported"
  | SpeechErrorCode.aborted => "aborted"

/-- The switch of `recognition.onerror` (lines 115-139): each code selects
the message stored in `error`; the default arm interpolates the code. -/
def errorMessage : SpeechErrorCode → String
  | SpeechErrorCode.notAllowed =>
      "Microphone access denied. Please allow microphone access in your browser settings and try again."
  | SpeechErrorCode.noSpeech =>
      "No speech detected. Please speak clearly and try again."
  | SpeechErrorCode.audioCapture =>
      "No microphone found. Please connect a microphone and try again."
  | SpeechErrorCode.network =>
      "Network error occurred. Please check your internet connection."
  | SpeechErrorCode.serviceNotAllowed =>
      "Speech recognition service not allowed. Please try again."
  | SpeechErrorCode.badGrammar =>
      "Speech recognition grammar error. Please try again."
  | SpeechErrorCode.languageNotSupported =>
      "Language not supported. Please try again."
  | SpeechErrorCode.aborted =>
      "Speech recognition error: " ++ codeString SpeechErrorCode.aborted ++ ". Please try again."

/-- The spec's stable error taxonomy (spec section 4.2). -/
inductive ErrKind where
  | permissionDenied : ErrKind
  | noSpeechDetected : ErrKind
  | deviceUnavailable : ErrKind
  | networkError : ErrKind
  | serviceDenied : ErrKind
  | configurationError : ErrKind
  | unknown : String → ErrKind
deriving DecidableEq

/-- Modelled from the spec: the classification table of section 4.2, mapping
each adapter error code to its taxonomy kind (used to compare the code's
realized classification against the spec's grouping). -/
def specErrorKind : SpeechErrorCode → ErrKind
  | SpeechErrorCode.notAllowed => ErrKind.permissionDenied
  | SpeechErrorCode.noSpeech => ErrKind.noSpeechDetected
  | SpeechErrorCode.audioCapture => ErrKind.deviceUnavailable
  | SpeechErrorCode.network => ErrKind.networkError
  | SpeechErrorCode.serviceNotAllowed => ErrKind.serviceDenied
  | SpeechErrorCode.badGrammar => ErrKind.configurationError
  | SpeechErrorCode.languageNotSupported => ErrKind.configurationError
  | SpeechErrorCode.aborted => ErrKind.unknown (codeString SpeechErrorCode.aborted)

/-- Helper for the JavaScript `String.includes` model: does `pat` occur at
the head of `s`? -/
def charsHasPre : List Char → List Char → Bool
  | [], _ => true
  | _ :: _, [] => false
  | p :: ps, c :: cs => p = c && charsHasPre ps cs

/-- Helper for the JavaScript `String.includes` model: does `pat` occur
anywhere in `s`? -/
def charsIncludes : List Char → List Char → Bool
  | pat, [] => charsHasPre pat []
  | pat, c :: cs => charsHasPre pat (c :: cs) || charsIncludes pat cs

/-- Model of the JavaScript `s.includes(pat)` substring test. -/
def strIncludes (s pat : String) : Bool :=
  charsIncludes pat.toList s.toList

/-- The remediation-content condition of `VoiceRecorder.tsx` (lines 127 and
153): permission instructions are offered exactly when the displayed error
message contains `denied` or `not-allowed`. -/
def showsPermissionHelp (msg : String) : Bool :=
  strIncludes msg "denied" || strIncludes msg "not-allowed"

/-- One entry of an `onresult` batch: the Web Speech API result's single
alternative, tagged final or interim, with its text and confidence score. -/
structure SpeechResult where
  isFinal : Bool
  text : String
  conf : ℚ
deriving DecidableEq

/-- The hook's React state together with the `recognitionRef` mutable ref.
Recognition objects are modelled as generation-counter handles allocated
from `nextHandle`; `started` records the handles whose `recognition.start()`
call completed (and which may therefore raise events), and `stoppedCalls`
records the handles on which the adapter's `stop()` was invoked. -/
structure SessionState where
  isListening : Bool
  transcript : String
  confidence : ℚ
  error : Option String
  recognitionRef : Option Nat
  nextHandle : Nat
  started : List Nat
  stoppedCalls : List Nat
deriving DecidableEq

/-- The hook's state on mount (lines 28-32). -/
def initialState : SessionState :=
  { isListening := false
    transcript := ""
    confidence := 0
    error := none
    recognitionRef := none
    nextHandle := 0
    started := []
    stoppedCalls := [] }

/-- One iteration of the `recognition.onresult` loop (lines 98-106): the
accumulator carries `finalTranscript`, `interimTranscript` and the value the
last `setConfidence` call wrote. -/
def procStep (acc : String × String × ℚ) (r : SpeechResult) : String × String × ℚ :=
  if r.isFinal then (acc.1 ++ r.text, acc.2.1, r.conf)
  else (acc.1, acc.2.1 ++ r.text, acc.2.2)

/-- The whole `recognition.onresult` loop over the delivered batch, started
from empty transcripts and the current confidence. -/
def processResults (b : List SpeechResult) (c0 : ℚ) : String × String × ℚ :=
  b.foldl procStep ("", "", c0)

/-- Concatenation of the final texts of a batch, in batch order. -/
def finalsText : List SpeechResult → String
  | [] => ""
  | r :: rs => if r.isFinal then r.text ++ finalsText rs else finalsText rs

/-- Concatenation of the interim texts of a batch, in batch order. -/
def interimsText : List SpeechResult → String
  | [] => ""
  | r :: rs => if r.isFinal then interimsText rs else r.text ++ interimsText rs

/-- Confidence of the last final result of a batch, defaulting to `c` when
the batch has no final result. -/
def lastFinalConf (c : ℚ) : List SpeechResult → ℚ
  | [] => c
  | r :: rs => if r.isFinal then lastFinalConf r.conf rs else lastFinalConf c rs

/-- The state reached by `startListening` right after `setError(null)`
(line 74), before `checkMicrophonePermission` is awaited. -/
def startPrePermission (s : SessionState) : SessionState :=
  { s with error := none }

/-- What `recognition.start()` does for the freshly created recognition
object: returns normally, or throws. -/
inductive EngineOutcome where
  | startOk : EngineOutcome
  | startThrow : JsError → EngineOutcome
deriving DecidableEq

/-- The platform behavior during one `startListening` call: the permission
primitive's behavior and the engine-start behavior. -/
structure StartEnv where
  media : MediaEnv
  engine : EngineOutcome
deriving DecidableEq

/-- The `err.message || fallback` expression of the catch block (line 152):
an empty message is falsy in JavaScript. -/
def jsMessageOr (e : JsError) : String :=
  if e.message = "" then startFallbackMsg else e.message

/-- The try block of `startListening` (lines 73-148): clear the error, await
the permission probe (its rethrown error propagates as a generic `Error`
carrying the classified message); on grant allocate the recognition object,
store it into `recognitionRef` (line 147) and call `start()` (line 148) -
if `start()` throws, the ref assignment has already happened. Returns the
mutated state together with the exception (if one escaped the block). -/
def startListeningTry (env : StartEnv) (s : SessionState) : SessionState × Option JsError :=
  let s1 := startPrePermission s
  match (checkMicrophonePermission env.media).thrown with
  | some msg => (s1, some (JsError.mk "Error" msg))
  | none =>
    let h := s1.nextHandle
    let s2 := { s1 with recognitionRef := some h, nextHandle := h + 1 }
    match env.engine with
    | EngineOutcome.startOk => ({ s2 with started := s2.started ++ [h] }, none)
    | EngineOutcome.startThrow e => (s2, some e)

/-- The full `startListening` call (lines 67-155) with its JavaScript
exception channel made explicit: the unsupported guard returns early with
the unsupported message, and the catch block converts every exception from
the try body into `error` plus `isListening := false`, so no path constructs
`Except.error`. -/
def startListeningCall (supported : Bool) (env : StartEnv) (s : SessionState) :
    Except JsError SessionState :=
  if supported = false then Except.ok { s with error := some unsupportedMsg }
  else
    match startListeningTry env s with
    | (s1, none) => Except.ok s1
    | (s1, some e) =>
        Except.ok { s1 with error := some (jsMessageOr e), isListening := false }

/-- The state transition of one `startListening` call (the `Except.error`
arm is unreachable; see the claim about error recovery). -/
def startListeningStep (supported : Bool) (env : StartEnv) (s : SessionState) : SessionState :=
  match startListeningCall supported env s with
  | Except.ok s1 => s1
  | Except.error _ => s

/-- `stopListening` (lines 157-163): when a recognition object is stored,
its `stop()` is called and the ref is cleared; the listening flag is always
lowered. -/
def stopListeningStep (s : SessionState) : SessionState :=
  { s with
      recognitionRef := none
      isListening := false
      stoppedCalls :=
        match s.recognitionRef with
        | some h => s.stoppedCalls ++ [h]
        | none => s.stoppedCalls }

/-- `stopListening` with its exception channel: the adapter's `stop()` is
non-throwing by the platform contract, so the call always returns normally. -/
def stopListeningCall (s : SessionState) : Except JsError SessionState :=
  Except.ok (stopListeningStep s)

/-- `resetTranscript` (lines 165-169). -/
def resetTranscript (s : SessionState) : SessionState :=
  { s with transcript := "", confidence := 0, error := none }

/-- The controller's tagged events: the three user commands and the four
adapter callbacks, each callback tagged with the handle that raised it. -/
inductive Ev where
  | startCmd : StartEnv → Ev
  | stopCmd : Ev
  | resetCmd : Ev
  | onStart : Nat → Ev
  | onResult : Nat → List SpeechResult → Ev
  | onError : Nat → SpeechErrorCode → Ev
  | onEnd : Nat → Ev
deriving DecidableEq

/-- The single-owner state-update function, in a supported environment.
The callback closures of the source (lines 88-145) are identical for every
recognition object and never compare the raising handle with
`recognitionRef`, so the handlers here ignore the handle tag. -/
def controllerStep (s : SessionState) : Ev → SessionState
  | Ev.startCmd env => startListeningStep true env s
  | Ev.stopCmd => stopListeningStep s
  | Ev.resetCmd => resetTranscript s
  | Ev.onStart _ => { s with isListening := true, error := none }
  | Ev.onResult _ b =>
      let p := processResults b s.confidence
      { s with transcript := p.1 ++ p.2.1, confidence := p.2.2 }
  | Ev.onError _ c => { s with isListening := false, error := some (errorMessage c) }
  | Ev.onEnd _ => { s with isListening := false }

/-- Run of the controller over an event list, in arrival order. -/
def runEvents (s : SessionState) (tr : List Ev) : SessionState :=
  tr.foldl controllerStep s

/-- An adapter callback is deliverable only for a handle whose `start()`
completed; user commands are always deliverable. -/
def evOk (s : SessionState) : Ev → Bool
  | Ev.onStart h => s.started.contains h
  | Ev.onResult h _ => s.started.contains h
  | Ev.onError h _ => s.started.contains h
  | Ev.onEnd h => s.started.contains h
  | _ => true

/-- A realizable trace: every event is deliverable in the state at which it
arrives. -/
def wfFrom (s : SessionState) : List Ev → Bool
  | [] => true
  | e :: es => evOk s e && wfFrom (controllerStep s e) es

/-- Modelled from the spec: the pending suffix after a batch, threading the
previous suffix; a final result clears it and an interim result overwrites
it (spec section 4.2, event onResult). -/
def specBatchPending (acc : String) : List SpeechResult → String
  | [] => acc
  | r :: rs => specBatchPending (if r.isFinal then "" else r.text) rs

/-- Modelled from the spec: one event's effect on the pair of finalized
prefix and pending suffix (spec sections 3 and 4.2). -/
def specAccum (acc : String × String) (e : Ev) : String × String :=
  match e with
  | Ev.onResult _ b => (acc.1 ++ finalsText b, specBatchPending acc.2 b)
  | _ => acc

/-- Modelled from the spec: the transcript property P1 - concatenation of
all finalized texts received so far followed by the most recent interim
text, empty before any result. -/
def specTranscript (tr : List Ev) : String :=
  let p := tr.foldl specAccum ("", "")
  p.1 ++ p.2

/-- A start environment in which permission is granted (no tracks for
brevity) and the engine starts normally. -/
def envOk : StartEnv :=
  { media := MediaEnv.granted [], engine := EngineOutcome.startOk }

/-- A start environment in which `getUserMedia` rejects with
`NotAllowedError`. -/
def envDenied : StartEnv :=
  { media := MediaEnv.denied (JsError.mk "NotAllowedError" "Permission denied")
    engine := EngineOutcome.startOk }

/-- Trace for the transcript counterexample: one final result `a`, then a
batch of two interim results `b`, `c` under the same live handle. -/
def c1Trace : List Ev :=
  [Ev.startCmd envOk, Ev.onStart 0,
   Ev.onResult 0 [SpeechResult.mk true "a" (92 / 100 : ℚ)],
   Ev.onResult 0 [SpeechResult.mk false "b" 0, SpeechResult.mk false "c" 0]]

/-- Trace reaching a Listening state (used by the start-while-listening
counterexample). -/
def c2PriorTrace : List Ev := [Ev.startCmd envOk, Ev.onStart 0]

/-- A reachable state in which the controller is Listening with one live
handle. -/
def c2DemoState : SessionState :=
  { initialState with isListening := true, recognitionRef := some 0, nextHandle := 1, started := [0] }

/-- Trace for the stale-handle counterexample: start, listen, stop, restart
and listen again, so handle 0 is stale while handle 1 is active. -/
def c3Trace : List Ev :=
  [Ev.startCmd envOk, Ev.onStart 0, Ev.stopCmd, Ev.startCmd envOk, Ev.onStart 1]

/-- A minimal realizable trace that reaches the Listening state. -/
def c5DemoTrace : List Ev := [Ev.startCmd envOk, Ev.onStart 0]

theorem procFoldEq (b : List SpeechResult) :
    ∀ (f i : String) (c : ℚ),
      b.foldl procStep (f, i, c) =
        (f ++ finalsText b, i ++ interimsText b, lastFinalConf c b) := by
  induction b with
  | nil =>
      intro f i c
      simp [finalsText, interimsText, lastFinalConf, String.append_empty]
  | cons r rs ih =>
      intro f i c
      cases hr : r.isFinal
      · simp [procStep, hr, finalsText, interimsText, lastFinalConf, ih, String.append_assoc]
      · simp [procStep, hr, finalsText, interimsText, lastFinalConf, ih, String.append_assoc]

theorem foldlSnocEq (ts : List Nat) :
    ∀ acc : List Nat, ts.foldl (fun a t => a ++ [t]) acc = acc ++ ts := by
  induction ts with
  | nil => intro acc; simp
  | cons t ts ih => intro acc; simp [ih]

theorem classifyPermErrorNe (e : JsError) : classifyPermError e ≠ "" := by
  unfold classifyPermError
  split_ifs <;> decide

theorem stepListeningSource (s : SessionState) (e : Ev)
    (hl : (controllerStep s e).isListening = true) :
    s.isListening = true ∨ ∃ h, e = Ev.onStart h := by
  cases e with
  | startCmd env =>
      left
      cases env with
      | mk m eng =>
        cases m with
        | unavailable =>
            simp [controllerStep, startListeningStep, startListeningCall, startListeningTry,
              checkMicrophonePermission, getUserMediaProbe, startPrePermission] at hl
        | denied e' =>
            simp [controllerStep, startListeningStep, startListeningCall, startListeningTry,
              checkMicrophonePermission, getUserMediaProbe, startPrePermission] at hl
        | granted ts =>
            cases eng with
            | startOk =>
                simpa [controllerStep, startListeningStep, startListeningCall, startListeningTry,
                  checkMicrophonePermission, getUserMediaProbe, startPrePermission] using hl
            | startThrow e' =>
                simp [controllerStep, startListeningStep, startListeningCall, startListeningTry,
                  checkMicrophonePermission, getUserMediaProbe, startPrePermission] at hl
  | stopCmd => simp [controllerStep, stopListeningStep] at hl
  | resetCmd => left; simpa [controllerStep, resetTranscript] using hl
  | onStart h => right; exact ⟨h, rfl⟩
  | onResult h b => left; simpa [controllerStep] using hl
  | onError h c => simp [controllerStep] at hl
  | onEnd h => simp [controllerStep] at hl

theorem stepStartedSource (s : SessionState) (e : Ev) (h : Nat)
    (hm : h ∈ (controllerStep s e).started) :
    h ∈ s.started ∨
      ∃ ts, e = Ev.startCmd { media := MediaEnv.granted ts, engine := EngineOutcome.startOk } := by
  cases e with
  | startCmd env =>
      cases env with
      | mk m eng =>
        cases m with
        | unavailable =>
            left
            simpa [controllerStep, startListeningStep, startListeningCall, startListeningTry,
              checkMicrophonePermission, getUserMediaProbe, startPrePermission] using hm
        | denied e' =>
            left
            simpa [controllerStep, startListeningStep, startListeningCall, startListeningTry,
              checkMicrophonePermission, getUserMediaProbe, startPrePermission] using hm
        | granted ts =>
            cases eng with
            | startOk =>
                have hm' : h ∈ s.started ++ [s.nextHandle] := by
                  simpa [controllerStep, startListeningStep, startListeningCall, startListeningTry,
                    checkMicrophonePermission, getUserMediaProbe, startPrePermission] using hm
                rcases List.mem_append.mp hm' with h1 | h2
                · left; exact h1
                · right; exact ⟨ts, rfl⟩
            | startThrow e' =>
                left
                simpa [controllerStep, startListeningStep, startListeningCall, startListeningTry,
                  checkMicrophonePermission, getUserMediaProbe, startPrePermission] using hm
  | stopCmd => left; simpa [controllerStep, stopListeningStep] using hm
  | resetCmd => left; simpa [controllerStep, resetTranscript] using hm
  | onStart h' => left; simpa [controllerStep] using hm
  | onResult h' b => left; simpa [controllerStep] using hm
  | onError h' c => left; simpa [controllerStep] using hm
  | onEnd h' => left; simpa [controllerStep] using hm

theorem runListeningSource :
    ∀ (tr : List Ev) (s : SessionState), wfFrom s tr = true →
      (runEvents s tr).isListening = true →
      s.isListening = true ∨
        ∃ h, Ev.onStart h ∈ tr ∧
          (h ∈ s.started ∨
            ∃ ts, Ev.startCmd { media := MediaEnv.granted ts, engine := EngineOutcome.startOk } ∈ tr) := by
  intro tr
  induction tr with
  | nil => intro s _ hl; left; exact hl
  | cons e es ih =>
      intro s hwf hl
      have hwf' : evOk s e = true ∧ wfFrom (controllerStep s e) es = true := by
        simpa [wfFrom] using hwf
      rcases ih (controllerStep s e) hwf'.2 hl with hstep | ⟨h, hmem, hsrc⟩
      · rcases stepListeningSource s e hstep with hs | ⟨h, rfl⟩
        · left; exact hs
        · right
          refine ⟨h, List.mem_cons_self _ _, Or.inl ?_⟩
          simpa [evOk] using hwf'.1
      · rcases hsrc with hstarted | ⟨ts, hcmd⟩
        · rcases stepStartedSource s e h hstarted with h1 | ⟨ts, rfl⟩
          · right; exact ⟨h, List.mem_cons_of_mem _ hmem, Or.inl h1⟩
          · right
            exact ⟨h, List.mem_cons_of_mem _ hmem, Or.inr ⟨ts, List.mem_cons_self _ _⟩⟩
        · right
          exact ⟨h, List.mem_cons_of_mem _ hmem, Or.inr ⟨ts, List.mem_cons_of_mem _ hcmd⟩⟩

/-- Claim C1, counterexample: on the realizable trace `c1Trace` the code's
transcript after the last event is `bc` (only the current batch, interims
concatenated), while the claimed value - all finalized text so far followed
by the most recent interim - is `ac`; the two differ, so the claim is false. -/
theorem claimC1Counterexample :
    wfFrom initialState c1Trace = true ∧
    (runEvents initialState c1Trace).transcript = "bc" ∧
    specTranscript c1Trace = "ac" ∧
    (runEvents initialState c1Trace).transcript ≠ specTranscript c1Trace :=
  ⟨by decide, by decide, by decide, by decide⟩

/-- Claim C1, amended: after each `onResult` event the transcript equals the
concatenation of that event's final texts followed by the concatenation of
that event's interim texts (finalized text from earlier events is not
retained unless redelivered, and several interim results in one batch are
concatenated rather than superseded); confidence becomes the score of the
batch's last final result, unchanged when the batch has none; the transcript
is empty before any event. -/
theorem claimC1Amended :
    (∀ (s : SessionState) (h : Nat) (b : List SpeechResult),
        (controllerStep s (Ev.onResult h b)).transcript = finalsText b ++ interimsText b ∧
        (controllerStep s (Ev.onResult h b)).confidence = lastFinalConf s.confidence b) ∧
    initialState.transcript = "" := by
  refine ⟨?_, rfl⟩
  intro s h b
  have hp : processResults b s.confidence =
      ("" ++ finalsText b, "" ++ interimsText b, lastFinalConf s.confidence b) :=
    procFoldEq b "" "" s.confidence
  constructor
  · simp [controllerStep, hp, String.empty_append]
  · simp [controllerStep, hp]

/-- Claim C2, counterexample: from the reachable Listening state after
`c2PriorTrace`, a second `start()` in a permission-granting environment is
not a no-op - it stores a fresh recognition handle and advances the handle
allocator, so a new adapter handle is created. -/
theorem claimC2Counterexample :
    wfFrom initialState c2PriorTrace = true ∧
    (runEvents initialState c2PriorTrace).isListening = true ∧
    (controllerStep (runEvents initialState c2PriorTrace) (Ev.startCmd envOk)).recognitionRef ≠
      (runEvents initialState c2PriorTrace).recognitionRef ∧
    (controllerStep (runEvents initialState c2PriorTrace) (Ev.startCmd envOk)).nextHandle ≠
      (runEvents initialState c2PriorTrace).nextHandle :=
  ⟨by decide, by decide, by decide, by decide⟩

/-- Claim C2, amended: `startListening` has no already-Listening guard (only
the unsupported check short-circuits): called while Listening in a supported
environment with permission granted and a normal engine start, it clears
`lastError` and allocates a fresh handle that replaces the stored one
(without stopping the old one), leaving the listening flag, transcript and
confidence unchanged. -/
theorem claimC2Amended :
    ∀ (s : SessionState) (ts : List Nat), s.isListening = true →
      controllerStep s (Ev.startCmd { media := MediaEnv.granted ts, engine := EngineOutcome.startOk }) =
        { s with
            error := none
            recognitionRef := some s.nextHandle
            nextHandle := s.nextHandle + 1
            started := s.started ++ [s.nextHandle] } := by
  intro s ts _
  cases s
  rfl

/-- Witness for the amended claim C2 at the concrete Listening state
`c2DemoState`. -/
theorem claimC2AmendedWitness :
    c2DemoState.isListening = true ∧
    controllerStep c2DemoState (Ev.startCmd { media := MediaEnv.granted [], engine := EngineOutcome.startOk }) =
      { c2DemoState with
          error := none
          recognitionRef := some c2DemoState.nextHandle
          nextHandle := c2DemoState.nextHandle + 1
          started := c2DemoState.started ++ [c2DemoState.nextHandle] } :=
  ⟨rfl, claimC2Amended c2DemoState [] rfl⟩

/-- Claim C3, counterexample: after `c3Trace` the controller is Listening
under the active handle 1, handle 0 is stale, and the stale `onEnd 0` is
deliverable (the trace extended with it is realizable); processing it lowers
the listening flag, so the stale event is not discarded and changes the
status. -/
theorem claimC3Counterexample :
    wfFrom initialState (c3Trace ++ [Ev.onEnd 0]) = true ∧
    (runEvents initialState c3Trace).isListening = true ∧
    (runEvents initialState c3Trace).recognitionRef = some 1 ∧
    (runEvents initialState (c3Trace ++ [Ev.onEnd 0])).isListening = false :=
  ⟨by decide, by decide, by decide, by decide⟩

/-- Claim C3, amended: the event handlers never compare the raising handle
with the active one, so stale events are applied exactly like live ones: any
`onEnd` lowers the listening flag (touching nothing else), and the effect of
`onStart`, `onEnd`, `onResult` and `onError` is independent of the handle
that raised them. -/
theorem claimC3Amended :
    (∀ (s : SessionState) (h : Nat),
        controllerStep s (Ev.onEnd h) = { s with isListening := false }) ∧
    (∀ (s : SessionState) (h h' : Nat),
        controllerStep s (Ev.onStart h) = controllerStep s (Ev.onStart h') ∧
        controllerStep s (Ev.onEnd h) = controllerStep s (Ev.onEnd h') ∧
        (∀ b, controllerStep s (Ev.onResult h b) = controllerStep s (Ev.onResult h' b)) ∧
        (∀ c, controllerStep s (Ev.onError h c) = controllerStep s (Ev.onError h' c))) :=
  ⟨fun _ _ => rfl, fun _ _ _ => ⟨rfl, rfl, fun _ => rfl, fun _ => rfl⟩⟩

/-- Claim C4: `onError` lowers the listening flag (status Idle) and stores
the message selected purely by the reported code, leaving everything else
unchanged; the realized classification refines the spec's taxonomy table
(equal messages imply equal kinds, so each code lands in exactly one kind);
and the UI's remediation-step content shows exactly for the code whose kind
is `PermissionDenied`. -/
theorem claimC4 :
    (∀ (h : Nat) (c : SpeechErrorCode) (s : SessionState),
        controllerStep s (Ev.onError h c) =
          { s with isListening := false, error := some (errorMessage c) }) ∧
    (∀ c c' : SpeechErrorCode,
        errorMessage c = errorMessage c' → specErrorKind c = specErrorKind c') ∧
    (∀ c : SpeechErrorCode,
        showsPermissionHelp (errorMessage c) = true ↔ specErrorKind c = ErrKind.permissionDenied) := by
  refine ⟨fun _ _ _ => rfl, ?_, ?_⟩
  · intro c c' hEq
    cases c <;> cases c' <;> first | rfl | exact absurd hEq (by decide)
  · intro c
    cases c <;> decide

/-- Witness for claim C4 at the `not-allowed` code. -/
theorem claimC4Witness :
    specErrorKind SpeechErrorCode.notAllowed = specErrorKind SpeechErrorCode.notAllowed ∧
    showsPermissionHelp (errorMessage SpeechErrorCode.notAllowed) = true :=
  ⟨claimC4.2.1 SpeechErrorCode.notAllowed SpeechErrorCode.notAllowed rfl,
   (claimC4.2.2 SpeechErrorCode.notAllowed).mpr rfl⟩

/-- Claim C5: when the permission probe fails during a supported `start()`,
the classified message is stored and the listening flag ends false with no
handle allocated; and on every realizable trace the controller is Listening
only if some `onStart` fired for a started handle and some `start()` ran
with permission granted and a successful engine start. -/
theorem claimC5 :
    (∀ (e : JsError) (eng : EngineOutcome) (s : SessionState),
        controllerStep s (Ev.startCmd { media := MediaEnv.denied e, engine := eng }) =
          { s with error := some (classifyPermError e), isListening := false }) ∧
    (∀ tr : List Ev, wfFrom initialState tr = true →
        (runEvents initialState tr).isListening = true →
        ∃ h, Ev.onStart h ∈ tr ∧
          ∃ ts, Ev.startCmd { media := MediaEnv.granted ts, engine := EngineOutcome.startOk } ∈ tr) := by
  constructor
  · intro e eng s
    have h1 : jsMessageOr (JsError.mk "Error" (classifyPermError e)) = classifyPermError e := by
      simp [jsMessageOr, classifyPermErrorNe e]
    cases s
    simp [controllerStep, startListeningStep, startListeningCall, startListeningTry,
      checkMicrophonePermission, getUserMediaProbe, startPrePermission, h1]
  · intro tr hwf hl
    rcases runListeningSource tr initialState hwf hl with h0 | ⟨h, hm, hsrc⟩
    · exact absurd h0 (by decide)
    · rcases hsrc with hS | hOk
      · exact absurd hS (by simp [initialState])
      · exact ⟨h, hm, hOk⟩

/-- Witness for claim C5 on the concrete realizable trace `c5DemoTrace`. -/
theorem claimC5Witness :
    ∃ h, Ev.onStart h ∈ c5DemoTrace ∧
      ∃ ts, Ev.startCmd { media := MediaEnv.granted ts, engine := EngineOutcome.startOk } ∈ c5DemoTrace :=
  claimC5.2 c5DemoTrace (by decide) (by decide)

/-- Claim C6: every exception escaping the try body of `startListening` is
caught and recorded in `lastError` with the listening flag lowered; the
whole `start()` call returns normally for every input (its exception channel
is never used), and `stop()` likewise returns normally. -/
theorem claimC6 :
    (∀ (env : StartEnv) (s s1 : SessionState) (e : JsError),
        startListeningTry env s = (s1, some e) →
        startListeningCall true env s =
          Except.ok { s1 with error := some (jsMessageOr e), isListening := false }) ∧
    (∀ (supported : Bool) (env : StartEnv) (s : SessionState),
        ∃ s1, startListeningCall supported env s = Except.ok s1) ∧
    (∀ s : SessionState, stopListeningCall s = Except.ok (stopListeningStep s)) := by
  refine ⟨?_, ?_, fun _ => rfl⟩
  · intro env s s1 e hTry
    simp [startListeningCall, hTry]
  · intro supported env s
    cases supported
    · exact ⟨_, rfl⟩
    · cases hT : startListeningTry env s with
      | mk s1 exc =>
        cases exc with
        | none => exact ⟨s1, by simp [startListeningCall, hT]⟩
        | some e =>
            exact ⟨{ s1 with error := some (jsMessageOr e), isListening := false },
              by simp [startListeningCall, hT]⟩

/-- Witness for claim C6: a permission-denied start is recovered into
`lastError` and the call returns normally. -/
theorem claimC6Witness :
    startListeningCall true envDenied initialState =
      Except.ok { startPrePermission initialState with
                    error := some (jsMessageOr (JsError.mk "Error" permDeniedMsg))
                    isListening := false } :=
  claimC6.1 envDenied initialState (startPrePermission initialState)
    (JsError.mk "Error" permDeniedMsg) (by decide)

/-- Claim C7: for every prior state, `resetTranscript` empties the
transcript, zeroes the confidence and clears the error, and leaves the
listening status unchanged. -/
theorem claimC7 :
    ∀ s : SessionState,
      (resetTranscript s).transcript = "" ∧
      (resetTranscript s).confidence = 0 ∧
      (resetTranscript s).error = none ∧
      (resetTranscript s).isListening = s.isListening :=
  fun _ => ⟨rfl, rfl, rfl, rfl⟩

/-- Claim C8: on every exit path of the permission probe - unavailable,
rejected, or granted - the tracks on which `stop()` was called are exactly
the tracks acquired, so no live device handle survives the call. -/
theorem claimC8 :
    ∀ m : MediaEnv,
      (checkMicrophonePermission m).stoppedTracks =
        (checkMicrophonePermission m).acquiredTracks := by
  intro m
  cases m with
  | unavailable => rfl
  | denied e => rfl
  | granted ts => simp [checkMicrophonePermission, getUserMediaProbe, foldlSnocEq]

/-- Claim C9: for every prior state, `stopListening` lowers the listening
flag and clears the stored recognition handle while leaving transcript,
confidence and error unchanged. -/
theorem claimC9 :
    ∀ s : SessionState,
      (stopListeningStep s).isListening = false ∧
      (stopListeningStep s).recognitionRef = none ∧
      (stopListeningStep s).transcript = s.transcript ∧
      (stopListeningStep s).confidence = s.confidence ∧
      (stopListeningStep s).error = s.error :=
  fun _ => ⟨rfl, rfl, rfl, rfl, rfl⟩

/-- Claim C10: in a supported environment `startListening` clears
`lastError` before the permission request resolves (the pre-permission state
has no error), and the final state of the call never depends on the
previously recorded error. -/
theorem claimC10 :
    (∀ s : SessionState, (startPrePermission s).error = none) ∧
    (∀ (env : StartEnv) (s : SessionState) (e1 e2 : Option String),
        startListeningStep true env { s with error := e1 } =
          startListeningStep true env { s with error := e2 }) := by
  refine ⟨fun _ => rfl, ?_⟩
  intro env s e1 e2
  cases env with
  | mk m eng => cases m <;> cases eng <;> rfl

end BoltVoice
